import Mathlib

/-!
Verification of the price-cache-dashboard client core.

This file gives a shallow embedding of the client's data-acquisition layer
(`src/client/src/lib/api.ts`, `src/client/src/hooks/useWebSocket.ts`,
`src/client/src/hooks/usePrice.ts` export helpers, and the metrics-history
buffer of `src/client/src/pages/Benchmark.tsx`) and proves or refutes the
spec's claims about it.

Conventions of the embedding:
- JavaScript numbers are modelled as exact rationals (`ℚ`); `Math.floor`
  is `Int.floor`; `x.toFixed(2)` re-parsed by `parseFloat` is `round2`
  (ECMAScript `toFixed` rounds to the nearest multiple of `10^-d`, ties
  towards the larger value, which for our nonnegative data is half-up).
- `Math.random()` draws are passed in explicitly as rational parameters,
  with the range hypothesis `0 ≤ r < 1` stated where a claim needs it.
- Network effects are made explicit: each fetch function takes a
  `FetchOutcome` describing what the network did (parsed success payload,
  non-success HTTP status, or a thrown exception/timeout), and module-level
  mutable state (the fallback cache) is passed and returned explicitly.
- `undefined`/`NaN`-producing reads (out-of-range index, `0/0`) are
  modelled with `Option`.
-/

namespace PriceDashboard

/-! ### Data model (`api.ts` interfaces) -/

/-- Interface `PriceData` from `api.ts` (lines 14–24). -/
structure PriceData where
  symbol : String
  price : ℚ
  bid : ℚ
  ask : ℚ
  volume : ℤ
  timestamp : String
  latency_ns : ℤ
  latency_us : ℚ
  source : String
deriving DecidableEq, Repr

/-- Interface `CacheStats` from `api.ts` (lines 26–32). -/
structure CacheStats where
  cache_hits : ℤ
  cache_misses : ℤ
  total_requests : ℤ
  hit_rate_percent : ℚ
  avg_latency_us : ℚ
deriving DecidableEq, Repr

/-- Model of `parseFloat(x.toFixed(2))`: round to 2 decimal places, ties up
(ECMAScript 21.1.3.3: of the two candidates, the larger is chosen). -/
def round2 (x : ℚ) : ℚ := (⌊x * 100 + 1/2⌋ : ℚ) / 100

/-- The `basePrice` object literal in `generateFallbackPriceData`
(`api.ts` lines 47–53). -/
def basePriceTable : List (String × ℚ) :=
  [("AAPL", 181.5), ("MSFT", 445.0), ("GOOGL", 140.0), ("AMZN", 196.0), ("TSLA", 242.0)]

/-- Lookup `basePrice[symbol] || 150` (`api.ts` line 55). -/
def basePrice (symbol : String) : ℚ := (basePriceTable.lookup symbol).getD 150

/-- The four `Math.random()` draws consumed by one call of
`generateFallbackPriceData`, in source order: volatility (line 56),
volume (line 65), latency_ns (line 67), latency_us (line 68). -/
structure RandQuad where
  volatilityDraw : ℚ
  volumeDraw : ℚ
  latencyNsDraw : ℚ
  latencyUsDraw : ℚ

/-- Function `generateFallbackPriceData` (`api.ts` lines 46–71). The timestamp
string produced by `new Date().toISOString()` is passed in as `ts`. -/
def generateFallbackPriceData (symbol : String) (r : RandQuad) (ts : String) : PriceData :=
  let base := basePrice symbol
  let volatility := (r.volatilityDraw - 1/2) * 2
  let price := base + volatility
  let spread := price * (1/1000)
  { symbol := symbol
    price := round2 price
    bid := round2 (price - spread)
    ask := round2 (price + spread)
    volume := ⌊r.volumeDraw * 10000000⌋
    timestamp := ts
    latency_ns := ⌊r.latencyNsDraw * 1000⌋ + 100
    latency_us := round2 (r.latencyUsDraw * (8/10) + 1/10)
    source := "fallback" }

/-- The module-level mutable state of `api.ts`:
`fallbackDataCache` and `lastFallbackUpdate` (lines 40–41). -/
structure FallbackState where
  cache : List (String × PriceData)
  lastUpdate : ℤ
deriving Repr

/-- The symbol list regenerated by `getFallbackData` (`api.ts` line 81). -/
def fallbackSymbols : List String := ["AAPL", "MSFT", "GOOGL", "AMZN", "TSLA"]

/-- Function `getFallbackData` (`api.ts` lines 76–93). `now` is `Date.now()`;
`rand` supplies the `Math.random()` draws consumed per symbol. -/
def getFallbackData (forceRefresh : Bool) (now : ℤ) (rand : String → RandQuad)
    (ts : String) (st : FallbackState) : List (String × PriceData) × FallbackState :=
  let cacheExpiry : ℤ := 2000
  if forceRefresh ∨ cacheExpiry < now - st.lastUpdate ∨ st.cache.length = 0 then
    let fresh := fallbackSymbols.map (fun s => (s, generateFallbackPriceData s (rand s) ts))
    (fresh, { cache := fresh, lastUpdate := now })
  else
    (st.cache, st)

/-- JavaScript `String.prototype.toUpperCase` restricted to its
characterwise behaviour (the only inputs here are ASCII tickers). -/
def jsToUpperCase (s : String) : String := String.mk (s.data.map Char.toUpper)

/-- What the network did for one request: parsed success payload `α`,
non-success HTTP status, or a thrown exception (network error, abort). -/
inductive FetchOutcome (α : Type) where
  | ok (value : α)
  | httpError (status : ℕ)
  | exn (message : String)

/-- Function `fetchPrice` (`api.ts` lines 98–112): on success returns the parsed
quote; on non-OK status or exception returns
`getFallbackData()[symbol.toUpperCase()] || null`. -/
def fetchPrice (symbol : String) (outcome : FetchOutcome PriceData) (now : ℤ)
    (rand : String → RandQuad) (ts : String) (st : FallbackState) :
    Option PriceData × FallbackState :=
  match outcome with
  | .ok p => (some p, st)
  | .httpError _ =>
      let (m, st') := getFallbackData false now rand ts st
      (m.lookup (jsToUpperCase symbol), st')
  | .exn _ =>
      let (m, st') := getFallbackData false now rand ts st
      (m.lookup (jsToUpperCase symbol), st')

/-- Function `fetchAllPrices` (`api.ts` lines 117–136): on success the parsed body
is `{prices, latency_us}` and every quote's `latency_us` is overwritten
with the single batch value; on non-OK status or exception the full
fallback mapping is returned. -/
def fetchAllPrices (outcome : FetchOutcome (List (String × PriceData) × ℚ)) (now : ℤ)
    (rand : String → RandQuad) (ts : String) (st : FallbackState) :
    List (String × PriceData) × FallbackState :=
  match outcome with
  | .ok (prices, lat) =>
      (prices.map (fun p => (p.1, { p.2 with latency_us := lat })), st)
  | .httpError _ => getFallbackData false now rand ts st
  | .exn _ => getFallbackData false now rand ts st

/-- The synthetic statistics object literal duplicated in both failure
branches of `fetchStats` (`api.ts` lines 148–154 and 160–166); the five
`Math.random()` draws are passed in source order. -/
def fallbackCacheStats (r1 r2 r3 r4 r5 : ℚ) : CacheStats :=
  { cache_hits := ⌊r1 * 10000⌋
    cache_misses := ⌊r2 * 100⌋
    total_requests := ⌊r3 * 10100⌋
    hit_rate_percent := 995/10 + r4 * (1/2)
    avg_latency_us := 39/100 + r5 * (1/5) }

/-- Function `fetchStats` (`api.ts` lines 141–168): the success payload's
`cache_stats` field is returned as-is; both failure branches return the
synthetic object. -/
def fetchStats (outcome : FetchOutcome CacheStats) (r1 r2 r3 r4 r5 : ℚ) :
    Option CacheStats :=
  match outcome with
  | .ok s => some s
  | .httpError _ => some (fallbackCacheStats r1 r2 r3 r4 r5)
  | .exn _ => some (fallbackCacheStats r1 r2 r3 r4 r5)

/-! ### Request configurations (the `fetch(...)` call sites of `api.ts`) -/

/-- The observable configuration of one `fetch` call: request path and the
timeout of the `AbortSignal.timeout(...)` option, if one is passed. -/
structure RequestConfig where
  path : String
  timeoutMs : Option ℕ
deriving DecidableEq, Repr

/-- The request issued by `fetchPrice` (`api.ts` lines 100–102):
`fetch(API_BASE_URL + "/price/" + symbol.toUpperCase(), {signal: AbortSignal.timeout(5000)})`. -/
def fetchPriceRequest (symbol : String) : RequestConfig :=
  { path := "/price/" ++ jsToUpperCase symbol, timeoutMs := some 5000 }

/-- The request issued by `fetchAllPrices` (`api.ts` lines 119–120):
`fetch(API_BASE_URL + "/prices")` — no options object, no signal. -/
def fetchAllPricesRequest : RequestConfig :=
  { path := "/prices", timeoutMs := none }

/-- The request issued by `fetchStats` (`api.ts` lines 143–145). -/
def fetchStatsRequest : RequestConfig :=
  { path := "/stats", timeoutMs := some 5000 }

/-- The request issued by `healthCheck` (`api.ts` lines 175–177). -/
def healthCheckRequest : RequestConfig :=
  { path := "/health", timeoutMs := some 5000 }

/-! ### `calculateStats` (`api.ts` lines 237–256) -/

/-- The result record of `calculateStats`. JavaScript yields `undefined`
for an out-of-range index and `NaN` for `0/0`; both are modelled `none`. -/
structure LatencyStats where
  min : Option ℚ
  max : Option ℚ
  mean : Option ℚ
  median : Option ℚ
  p95 : Option ℚ
  p99 : Option ℚ
deriving DecidableEq, Repr

/-- Function `calculateStats` (`api.ts` lines 237–256). `[...latencies].sort((a,b) => a-b)`
is the ascending sort; `Math.floor(len * 0.95)` is the exact floor
`len * 95 / 100` (exact rational arithmetic in place of binary doubles). -/
def calculateStats (latencies : List ℚ) : LatencyStats :=
  let sorted := latencies.mergeSort
  let len := sorted.length
  { min := sorted[0]?
    max := sorted[len - 1]?
    mean := if len = 0 then none else some (sorted.sum / len)
    median := sorted[len / 2]?
    p95 := sorted[len * 95 / 100]?
    p99 := sorted[len * 99 / 100]? }

/-! ### StreamClient (`useWebSocket.ts`)

The hook is event-driven; we model it as a step function over the refs and
state it keeps (`reconnectAttemptsRef`, `reconnectTimeoutRef`, `wsRef`,
`isConnected`, `lastError`).  A subtlety of the source is modelled
faithfully: `disconnect()` (lines 88–97) clears the pending timer and calls
`wsRef.current.close()`, but it does not detach the socket's `onclose`
handler, so the close event of that socket still runs the handler body of
lines 61–78 afterwards; `closeEventPending` records that an explicitly
closed socket still has its close event in flight. -/

structure StreamConfig where
  reconnectInterval : ℕ
  maxReconnectAttempts : ℕ

/-- The hook's default options (`useWebSocket.ts` lines 19–20). -/
def defaultStreamConfig : StreamConfig :=
  { reconnectInterval := 3000, maxReconnectAttempts := 5 }

structure StreamState where
  reconnectAttempts : ℕ
  pendingReconnect : Option ℕ
  socketAlive : Bool
  closeEventPending : Bool
  isConnected : Bool
  lastError : Option String
deriving DecidableEq, Repr

/-- State before the mount effect runs (`useWebSocket.ts` lines 22–26). -/
def initialStreamState : StreamState :=
  { reconnectAttempts := 0, pendingReconnect := none, socketAlive := false
    closeEventPending := false, isConnected := false, lastError := none }

inductive StreamEvent where
  | connectCall
  | openEvent
  | closeEvent
  | timerFire
  | disconnectCall
deriving DecidableEq, Repr

/-- Backoff `reconnectInterval * Math.pow(2, reconnectAttemptsRef.current)`
(`useWebSocket.ts` line 68). -/
def backoffMs (interval attempt : ℕ) : ℕ := interval * 2 ^ attempt

/-- One event of the hook:
`connectCall` = `connect()` creating a socket (lines 28–86),
`openEvent` = `ws.onopen` (lines 37–43),
`closeEvent` = `ws.onclose` (lines 61–78),
`timerFire` = the scheduled `setTimeout` body (lines 71–74),
`disconnectCall` = `disconnect()` (lines 88–97). -/
def streamStep (cfg : StreamConfig) (st : StreamState) (e : StreamEvent) : StreamState :=
  match e with
  | .connectCall => { st with socketAlive := true }
  | .openEvent =>
      if st.socketAlive then
        { st with isConnected := true, lastError := none, reconnectAttempts := 0 }
      else st
  | .closeEvent =>
      if st.socketAlive ∨ st.closeEventPending then
        let st' := { st with isConnected := false, socketAlive := false
                             closeEventPending := false }
        if st.reconnectAttempts < cfg.maxReconnectAttempts then
          let d := backoffMs cfg.reconnectInterval st.reconnectAttempts
          { st' with pendingReconnect := some d }
        else
          { st' with lastError := some ("Max reconnection attempts reached") }
      else st
  | .timerFire =>
      match st.pendingReconnect with
      | some _ =>
          { st with pendingReconnect := none
                    reconnectAttempts := st.reconnectAttempts + 1
                    socketAlive := true }
      | none => st
  | .disconnectCall =>
      { st with pendingReconnect := none
                socketAlive := false
                closeEventPending := st.socketAlive
                isConnected := false }

/-- Run the hook from its initial state over a sequence of events. -/
def runStream (cfg : StreamConfig) (evs : List StreamEvent) : StreamState :=
  evs.foldl (streamStep cfg) initialStreamState

/-! ### Metrics history buffer (`Benchmark.tsx`, Observability page)

and export helpers (`usePrice.ts` export section). -/

/-- Interface `MetricsSnapshot` from the export helpers (`usePrice.ts` lines 124–135). -/
structure MetricsSnapshot where
  timestamp : String
  cache_hits : ℤ
  cache_misses : ℤ
  stale_hits : ℤ
  hit_rate_percent : ℚ
  avg_latency_us : ℚ
  p95_latency_us : ℚ
  p99_latency_us : ℚ
  refresh_errors : ℤ
  cache_size : ℤ
deriving DecidableEq, Repr

/-- JavaScript `l.slice(-k)` for `k > 0`: the last `min(k, length)` elements. -/
def jsSliceLast (l : List MetricsSnapshot) (k : ℕ) : List MetricsSnapshot :=
  l.drop (l.length - k)

/-- The history updater of the Observability page:
`setMetricsHistory((prev) => [...prev.slice(-99), snapshot])`
(`Benchmark.tsx`, `useWebSocket onMessage`, "Keep last 100 samples"). -/
def appendSnapshot (prev : List MetricsSnapshot) (s : MetricsSnapshot) :
    List MetricsSnapshot :=
  jsSliceLast prev 99 ++ [s]

/-- The buffer contents after a sequence of appends starting empty. -/
def metricsHistoryAfter (ss : List MetricsSnapshot) : List MetricsSnapshot :=
  ss.foldl appendSnapshot []

/-- Interface `BenchmarkResult` from the export helpers (`usePrice.ts` lines 113–122). -/
structure BenchmarkResult where
  symbol : String
  cached_latency_us : ℚ
  uncached_latency_us : ℚ
  speedup_factor : ℚ
  p95_latency_us : ℚ
  p99_latency_us : ℚ
  sample_count : ℤ
  timestamp : String
deriving DecidableEq, Repr

/-- ECMAScript `Number.prototype.toFixed(d)`: the integer `n` with
`n / 10^d` closest to `x`, ties towards the larger `n`, rendered with
exactly `d` digits after the point. -/
def toFixed (x : ℚ) (d : ℕ) : String :=
  let n : ℤ := ⌊x * (10 : ℚ) ^ d + 1/2⌋
  let sign := if n < 0 then "-" else ""
  let m := n.natAbs
  if d = 0 then sign ++ toString m
  else
    let q := m / 10 ^ d
    let r := m % 10 ^ d
    let rs := toString r
    let pad := String.mk (List.replicate (d - rs.length) '0')
    sign ++ toString q ++ "." ++ pad ++ rs

/-- One row of `benchmarkToCSV` (`usePrice.ts` export section, the
`results.map` producing `[symbol, cached.toFixed(3), ...]`). -/
def benchmarkRow (r : BenchmarkResult) : List String :=
  [r.symbol, toFixed r.cached_latency_us 3, toFixed r.uncached_latency_us 3,
   toFixed r.speedup_factor 0, toFixed r.p95_latency_us 3,
   toFixed r.p99_latency_us 3, toString r.sample_count, r.timestamp]

/-- Rendering `row.map(cell => quote(cell)).join(",")` of one CSV row. -/
def quoteJoin (row : List String) : String :=
  String.intercalate (",") (row.map (fun cell => "\"" ++ cell ++ "\""))

/-- Function `benchmarkToCSV` (`usePrice.ts` export section, lines 140–173). -/
def benchmarkToCSV (results : List BenchmarkResult) : String :=
  if results.length = 0 then "No benchmark results to export"
  else
    let headers := ["Symbol", "Cached Latency (µs)", "Uncached Latency (µs)",
                    "Speedup Factor", "P95 Latency (µs)", "P99 Latency (µs)",
                    "Sample Count", "Timestamp"]
    let rows := results.map benchmarkRow
    String.intercalate ("\n")
      (String.intercalate (",") headers :: rows.map quoteJoin)

/-- One row of `metricsToCSV`. -/
def metricsRow (m : MetricsSnapshot) : List String :=
  [m.timestamp, toString m.cache_hits, toString m.cache_misses,
   toString m.stale_hits, toFixed m.hit_rate_percent 2,
   toFixed m.avg_latency_us 3, toFixed m.p95_latency_us 3,
   toFixed m.p99_latency_us 3, toString m.refresh_errors, toString m.cache_size]

/-- Function `metricsToCSV` (`usePrice.ts` export section, lines 178–215). -/
def metricsToCSV (metrics : List MetricsSnapshot) : String :=
  if metrics.length = 0 then "No metrics data to export"
  else
    let headers := ["Timestamp", "Cache Hits", "Cache Misses", "Stale Hits",
                    "Hit Rate (%)", "Avg Latency (µs)", "P95 Latency (µs)",
                    "P99 Latency (µs)", "Refresh Errors", "Cache Size"]
    let rows := metrics.map metricsRow
    String.intercalate ("\n")
      (String.intercalate (",") headers :: rows.map quoteJoin)

/-! ### Helper lemmas -/

/-- Invariant of the module-level fallback cache: it is either still empty
(before the first generation) or was filled by a previous generation over
the fixed symbol list. -/
def FallbackCacheInv (st : FallbackState) : Prop :=
  st.cache = [] ∨ st.cache.map Prod.fst = fallbackSymbols

lemma getFallbackData_keys (forceRefresh : Bool) (now : ℤ) (rand : String → RandQuad)
    (ts : String) (st : FallbackState) (h : FallbackCacheInv st) :
    ((getFallbackData forceRefresh now rand ts st).1).map Prod.fst = fallbackSymbols := by
  by_cases hc : (forceRefresh = true ∨ (2000:ℤ) < now - st.lastUpdate ∨ st.cache.length = 0)
  · simp only [getFallbackData, if_pos hc]
    simp [Function.comp_def]
  · have hcache : st.cache.map Prod.fst = fallbackSymbols := by
      rcases h with h | h
      · exact absurd (Or.inr (Or.inr (by simp [h]))) hc
      · exact h
    simp only [getFallbackData, if_neg hc]
    exact hcache

/-- The state invariant is preserved by `getFallbackData`. -/
lemma getFallbackData_inv (forceRefresh : Bool) (now : ℤ) (rand : String → RandQuad)
    (ts : String) (st : FallbackState) (h : FallbackCacheInv st) :
    FallbackCacheInv (getFallbackData forceRefresh now rand ts st).2 := by
  by_cases hc : (forceRefresh = true ∨ (2000:ℤ) < now - st.lastUpdate ∨ st.cache.length = 0)
  · right
    simp only [getFallbackData, if_pos hc]
    simp [Function.comp_def]
  · simp only [getFallbackData, if_neg hc]
    exact h

/-- The five-step invariant of the reconnect machinery under the default
configuration: the attempt counter never passes 5, and any scheduled delay
was computed as `3000 * 2^a` with `a < 5`. -/
def StreamInv (st : StreamState) : Prop :=
  st.reconnectAttempts ≤ 5 ∧
  (st.pendingReconnect.isSome = true → st.reconnectAttempts < 5) ∧
  (∀ d, st.pendingReconnect = some d → ∃ a, a < 5 ∧ d = backoffMs 3000 a)

lemma streamStep_preserves_inv (st : StreamState) (e : StreamEvent)
    (h : StreamInv st) : StreamInv (streamStep defaultStreamConfig st e) := by
  obtain ⟨h1, h2, h3⟩ := h
  cases e with
  | connectCall => exact ⟨h1, h2, h3⟩
  | openEvent =>
      by_cases hs : st.socketAlive = true
      · simp only [streamStep, hs, if_true]
        exact ⟨show (0:ℕ) ≤ 5 by decide, fun _ => show (0:ℕ) < 5 by decide, h3⟩
      · simpa [streamStep, hs] using ⟨h1, h2, h3⟩
  | closeEvent =>
      simp only [streamStep]
      split
      · split
        · rename_i hlt
          refine ⟨h1, fun _ => hlt, ?_⟩
          intro d hd
          simp only [Option.some.injEq] at hd
          exact ⟨st.reconnectAttempts, hlt, hd.symm⟩
        · exact ⟨h1, h2, h3⟩
      · exact ⟨h1, h2, h3⟩
  | timerFire =>
      cases hp : st.pendingReconnect with
      | none => simpa [streamStep, hp] using ⟨h1, h2, h3⟩
      | some d =>
          have hlt : st.reconnectAttempts < 5 := h2 (by simp [hp])
          simp only [streamStep, hp]
          refine ⟨hlt, ?_, ?_⟩
          · intro hsome
            simp at hsome
          · intro d' hd'
            simp at hd'
  | disconnectCall =>
      refine ⟨h1, ?_, ?_⟩
      · intro hsome
        simp [streamStep] at hsome
      · intro d hd
        simp [streamStep] at hd

lemma runStream_inv (evs : List StreamEvent) :
    StreamInv (runStream defaultStreamConfig evs) := by
  have base : StreamInv initialStreamState := by
    refine ⟨by simp [initialStreamState], ?_, ?_⟩
    · intro h
      simp [initialStreamState] at h
    · intro d hd
      simp [initialStreamState] at hd
  have gen : ∀ (l : List StreamEvent) (st : StreamState), StreamInv st →
      StreamInv (l.foldl (streamStep defaultStreamConfig) st) := by
    intro l
    induction l with
    | nil => intro st h; exact h
    | cons e tl ih =>
        intro st h
        exact ih _ (streamStep_preserves_inv st e h)
  exact gen evs initialStreamState base

lemma metricsHistoryAfter_eq_drop (ss : List MetricsSnapshot) :
    metricsHistoryAfter ss = ss.drop (ss.length - 100) := by
  induction ss using List.reverseRecOn with
  | nil => rfl
  | append_singleton ss s ih =>
      have step : metricsHistoryAfter (ss ++ [s])
          = appendSnapshot (metricsHistoryAfter ss) s := by
        simp [metricsHistoryAfter, List.foldl_append]
      rw [step, ih]
      unfold appendSnapshot jsSliceLast
      rw [List.length_drop, List.drop_drop]
      have harith : ss.length - 100 + (ss.length - (ss.length - 100) - 99)
          = (ss ++ [s]).length - 100 := by
        simp only [List.length_append, List.length_singleton]
        omega
      rw [harith.symm]
      rw [List.drop_append_of_le_length (by omega)]

/-- Unfolding of `calculateStats` into its field equations. -/
lemma calculateStats_def (l : List ℚ) :
    calculateStats l =
      { min := (l.mergeSort)[0]?
        max := (l.mergeSort)[(l.mergeSort).length - 1]?
        mean := if (l.mergeSort).length = 0 then none
                else some ((l.mergeSort).sum / ((l.mergeSort).length : ℚ))
        median := (l.mergeSort)[(l.mergeSort).length / 2]?
        p95 := (l.mergeSort)[(l.mergeSort).length * 95 / 100]?
        p99 := (l.mergeSort)[(l.mergeSort).length * 99 / 100]? } := rfl

lemma round2_mono {x y : ℚ} (h : x ≤ y) : round2 x ≤ round2 y := by
  unfold round2
  have hf : (⌊x * 100 + 1/2⌋ : ℤ) ≤ ⌊y * 100 + 1/2⌋ := Int.floor_le_floor (by linarith)
  have hc : ((⌊x * 100 + 1/2⌋ : ℤ) : ℚ) ≤ ((⌊y * 100 + 1/2⌋ : ℤ) : ℚ) := by exact_mod_cast hf
  linarith

/-- Half-integers are fixed points of `round2`. -/
lemma round2_half (k : ℤ) : round2 ((k : ℚ) / 2) = (k : ℚ) / 2 := by
  unfold round2
  have hfl : ⌊((k : ℚ) / 2) * 100 + 1/2⌋ = 50 * k := by
    apply Int.floor_eq_iff.mpr
    constructor
    · push_cast
      linarith
    · push_cast
      linarith
  rw [hfl]
  push_cast
  ring

lemma mergeSort_head?_eq_min? (l : List ℚ) : (l.mergeSort).head? = l.min? := by
  have inst : Std.Antisymm (fun (a b : ℚ) => a ≤ b) := ⟨fun h h' => le_antisymm h h'⟩
  have hp : List.Perm l.mergeSort l := List.mergeSort_perm l _
  have hs : List.Sorted (· ≤ ·) l.mergeSort := List.sorted_mergeSort' l
  cases hm : l.mergeSort with
  | nil =>
      have h0 : List.Perm ([] : List ℚ) l := hm ▸ hp
      have : l = [] := h0.symm.eq_nil
      simp [this]
  | cons m rest =>
      rw [hm] at hp hs
      have hmem : m ∈ l := hp.subset (List.mem_cons_self m rest)
      have hall : ∀ b ∈ l, m ≤ b := by
        intro b hb
        have hb' : b ∈ m :: rest := hp.symm.subset hb
        rcases List.mem_cons.mp hb' with rfl | hb2
        · exact le_refl b
        · exact List.rel_of_sorted_cons hs b hb2
      show some m = l.min?
      symm
      rw [List.min?_eq_some_iff]
      · exact ⟨hmem, hall⟩
      · exact fun a => le_refl a
      · exact fun a b => min_choice a b
      · exact fun a b c => le_min_iff

lemma mergeSort_getLast?_eq_max? (l : List ℚ) : (l.mergeSort).getLast? = l.max? := by
  have inst : Std.Antisymm (fun (a b : ℚ) => a ≤ b) := ⟨fun h h' => le_antisymm h h'⟩
  have hp : List.Perm l.mergeSort l := List.mergeSort_perm l _
  have hs : List.Sorted (· ≤ ·) l.mergeSort := List.sorted_mergeSort' l
  cases hm : l.mergeSort with
  | nil =>
      have h0 : List.Perm ([] : List ℚ) l := hm ▸ hp
      have : l = [] := h0.symm.eq_nil
      simp [this]
  | cons m rest =>
      rw [hm] at hp hs
      have hne : (m :: rest : List ℚ) ≠ [] := by simp
      have hM := List.getLast_mem hne
      have hmem : (m :: rest).getLast hne ∈ l := hp.subset hM
      have hall : ∀ b ∈ l, b ≤ (m :: rest).getLast hne := by
        intro b hb
        have hb' : b ∈ m :: rest := hp.symm.subset hb
        obtain ⟨i, hi⟩ := List.mem_iff_get.mp hb'
        have hlast : (m :: rest).getLast hne
            = (m :: rest).get ⟨(m :: rest).length - 1, by simp⟩ := by
          rw [List.getLast_eq_getElem]
          simp [List.get_eq_getElem]
        rw [hlast, ← hi]
        apply List.Sorted.rel_get_of_le hs
        have := i.2
        simp only [Fin.le_def]
        omega
      rw [List.getLast?_eq_getLast _ hne]
      symm
      rw [List.max?_eq_some_iff]
      · exact ⟨hmem, hall⟩
      · exact fun a => le_refl a
      · exact fun a b => max_choice a b
      · exact fun a b c => max_le_iff

/-! ### Claims -/

/-- C10: for empty input the CSV serializers return the fixed sentinel
strings rather than a header-only CSV document. -/
theorem emptyExport_returns_sentinel :
    benchmarkToCSV [] = "No benchmark results to export" ∧
    metricsToCSV [] = "No metrics data to export" := by
  exact ⟨rfl, rfl⟩

/-- C6 (counterexample): the claim that every REST request of the
price-feed client carries a 5-second abort signal is false — the bulk
request issued by `fetchAllPrices` carries none. -/
theorem fetchAllPrices_request_has_no_timeout :
    fetchAllPricesRequest.timeoutMs = none ∧
    fetchAllPricesRequest.timeoutMs ≠ some 5000 := by
  refine ⟨rfl, ?_⟩
  simp [fetchAllPricesRequest]

/-- C6 (amended): `fetchPrice`, `fetchStats` and `healthCheck` requests
each carry an explicit 5-second abort signal, while the `fetchAllPrices`
bulk request is issued without any timeout signal. -/
theorem restRequest_timeout_configuration :
    (∀ symbol : String, (fetchPriceRequest symbol).timeoutMs = some 5000) ∧
    fetchStatsRequest.timeoutMs = some 5000 ∧
    healthCheckRequest.timeoutMs = some 5000 ∧
    fetchAllPricesRequest.timeoutMs = none := by
  exact ⟨fun _ => rfl, rfl, rfl, rfl⟩

/-- C5: after `disconnect()` closed the socket, the still-attached
`onclose` handler runs on the socket's close event and schedules a fresh
automatic reconnect (3000 ms, attempt counter 0), which then fires and
creates a new socket — contradicting the requirement that no automatic
reconnection fires after an explicit disconnect. -/
theorem reconnect_fires_after_disconnect :
    (runStream defaultStreamConfig
        [.connectCall, .openEvent, .disconnectCall, .closeEvent]).pendingReconnect
      = some 3000 ∧
    (runStream defaultStreamConfig
        [.connectCall, .openEvent, .disconnectCall, .closeEvent, .timerFire]).socketAlive
      = true := by
  exact ⟨by decide, by decide⟩

/-- C4: with the default base interval 3000 ms and default maximum of 5
attempts, the reconnect delay for attempt `a` is `3000 * 2^a`, giving
`[3000, 6000, 12000, 24000, 48000]` for attempts 0..4; in every reachable
state the attempt counter is at most 5 and a reconnect is only ever
scheduled from a state with fewer than 5 attempts (so no 6th automatic
attempt is ever scheduled), and a successful open resets the counter to 0. -/
theorem reconnect_backoff_and_cap :
    ((List.range 5).map (backoffMs 3000) = [3000, 6000, 12000, 24000, 48000]) ∧
    (∀ evs : List StreamEvent, StreamInv (runStream defaultStreamConfig evs)) ∧
    (∀ st : StreamState, st.socketAlive = true →
        (streamStep defaultStreamConfig st .openEvent).reconnectAttempts = 0) := by
  refine ⟨by decide, runStream_inv, ?_⟩
  intro st hs
  simp [streamStep, hs]

/-- C4 witness: a concrete run reaching a scheduled reconnect satisfies
the invariant, and an open on a live socket resets the counter. -/
theorem reconnect_backoff_and_cap_witness :
    (runStream defaultStreamConfig [.connectCall, .closeEvent]).reconnectAttempts < 5 ∧
    (streamStep defaultStreamConfig
        { reconnectAttempts := 3, pendingReconnect := none, socketAlive := true
          closeEventPending := false, isConnected := true, lastError := none }
        .openEvent).reconnectAttempts = 0 := by
  constructor
  · exact (reconnect_backoff_and_cap.2.1 [.connectCall, .closeEvent]).2.1 (by decide)
  · exact reconnect_backoff_and_cap.2.2 _ rfl

/-- C2: the metrics history buffer holds, after any append sequence,
exactly the most recent at most 100 snapshots in insertion order (strict
FIFO eviction from the head); it never exceeds 100 entries, and after 150
appends it has exactly 100 with the 51st inserted snapshot oldest. -/
theorem metricsHistory_capacity_fifo :
    ∀ ss : List MetricsSnapshot,
      (metricsHistoryAfter ss).length ≤ 100 ∧
      metricsHistoryAfter ss = ss.drop (ss.length - 100) ∧
      (ss.length = 150 →
        (metricsHistoryAfter ss).length = 100 ∧
        (metricsHistoryAfter ss).head? = ss[50]?) := by
  intro ss
  have hdrop := metricsHistoryAfter_eq_drop ss
  refine ⟨?_, hdrop, ?_⟩
  · rw [hdrop, List.length_drop]
    omega
  · intro h150
    constructor
    · rw [hdrop, List.length_drop]
      omega
    · rw [hdrop, h150]
      simp [List.head?_drop]

/-- A deterministic family of distinct snapshots used as witness data. -/
def demoSnapshot (i : ℕ) : MetricsSnapshot :=
  { timestamp := toString i, cache_hits := i, cache_misses := 0, stale_hits := 0
    hit_rate_percent := 0, avg_latency_us := 0, p95_latency_us := 0
    p99_latency_us := 0, refresh_errors := 0, cache_size := 0 }

/-- A demo run of 150 appended snapshots. -/
def demoHistory : List MetricsSnapshot := (List.range 150).map demoSnapshot

/-- C2 witness: after the demo run of 150 appends the buffer holds 100
snapshots and its oldest entry is the 51st inserted one. -/
theorem metricsHistory_capacity_fifo_witness :
    (metricsHistoryAfter demoHistory).length = 100 ∧
    (metricsHistoryAfter demoHistory).head? = demoHistory[50]? := by
  exact (metricsHistory_capacity_fifo demoHistory).2.2 (by simp [demoHistory])

/-- C1: `fetchAllPrices` never yields a partial mapping: on success the
result covers exactly the live symbol set with the single batch latency
written onto every quote, and on any failure (non-success status or
exception) it covers exactly the full fallback symbol set. -/
theorem fetchAllPrices_never_partial :
    (∀ (prices : List (String × PriceData)) (lat : ℚ) (now : ℤ)
        (rand : String → RandQuad) (ts : String) (st : FallbackState),
      ((fetchAllPrices (.ok (prices, lat)) now rand ts st).1).map Prod.fst
          = prices.map Prod.fst ∧
      ∀ p ∈ (fetchAllPrices (.ok (prices, lat)) now rand ts st).1,
        p.2.latency_us = lat) ∧
    (∀ (status : ℕ) (now : ℤ) (rand : String → RandQuad) (ts : String)
        (st : FallbackState), FallbackCacheInv st →
      ((fetchAllPrices (.httpError status) now rand ts st).1).map Prod.fst
          = fallbackSymbols) ∧
    (∀ (msg : String) (now : ℤ) (rand : String → RandQuad) (ts : String)
        (st : FallbackState), FallbackCacheInv st →
      ((fetchAllPrices (.exn msg) now rand ts st).1).map Prod.fst
          = fallbackSymbols) := by
  refine ⟨?_, ?_, ?_⟩
  · intro prices lat now rand ts st
    constructor
    · simp [fetchAllPrices, List.map_map, Function.comp_def]
    · intro p hp
      simp only [fetchAllPrices, List.mem_map] at hp
      obtain ⟨q, _, rfl⟩ := hp
      rfl
  · intro status now rand ts st h
    simpa [fetchAllPrices] using getFallbackData_keys false now rand ts st h
  · intro msg now rand ts st h
    simpa [fetchAllPrices] using getFallbackData_keys false now rand ts st h

/-- C1 witness: a network exception with an empty module cache still
produces the full five-symbol fallback mapping. -/
theorem fetchAllPrices_never_partial_witness :
    ((fetchAllPrices (.exn ("TypeError: Failed to fetch")) 0
        (fun _ => ⟨1/2, 1/2, 1/2, 1/2⟩) "2026-01-01T00:00:00.000Z"
        { cache := [], lastUpdate := 0 }).1).map Prod.fst = fallbackSymbols := by
  exact fetchAllPrices_never_partial.2.2 "TypeError: Failed to fetch" 0
    (fun _ => ⟨1/2, 1/2, 1/2, 1/2⟩) "2026-01-01T00:00:00.000Z"
    { cache := [], lastUpdate := 0 } (Or.inl rfl)

/-- C8 (counterexample): with failure draws `r1 = r2 = 0`, `r3 = 1/2` the
synthetic statistics returned by `fetchStats` have
`total_requests = 5050 ≠ 0 + 0 = cache_hits + cache_misses`. -/
theorem fetchStats_sum_invariant_counterexample :
    fetchStats (.exn ("TypeError: Failed to fetch")) 0 0 (1/2) 0 0 =
      some { cache_hits := 0, cache_misses := 0, total_requests := 5050,
             hit_rate_percent := 995/10, avg_latency_us := 39/100 } ∧
    (5050 : ℤ) ≠ 0 + 0 := by
  constructor
  · show some (fallbackCacheStats 0 0 (1/2) 0 0) = _
    unfold fallbackCacheStats
    norm_num
  · norm_num

/-- C8 (amended): the live path returns the server statistics unchanged;
the synthetic statistics returned on failure have a hit rate in
`[99.5, 100)` and counts bounded by their draw ranges, but
`total_requests` is an independent draw in `[0, 10100)` and is not
constrained to equal `cache_hits + cache_misses`. -/
theorem fetchStats_fallback_bounds :
    ∀ (o : FetchOutcome CacheStats) (r1 r2 r3 r4 r5 : ℚ),
      (∀ s, o = .ok s → fetchStats o r1 r2 r3 r4 r5 = some s) ∧
      ((∀ s, o ≠ .ok s) →
        0 ≤ r1 → r1 < 1 → 0 ≤ r2 → r2 < 1 → 0 ≤ r3 → r3 < 1 → 0 ≤ r4 → r4 < 1 →
        fetchStats o r1 r2 r3 r4 r5 = some (fallbackCacheStats r1 r2 r3 r4 r5) ∧
        995/10 ≤ (fallbackCacheStats r1 r2 r3 r4 r5).hit_rate_percent ∧
        (fallbackCacheStats r1 r2 r3 r4 r5).hit_rate_percent < 100 ∧
        0 ≤ (fallbackCacheStats r1 r2 r3 r4 r5).cache_hits ∧
        (fallbackCacheStats r1 r2 r3 r4 r5).cache_hits < 10000 ∧
        0 ≤ (fallbackCacheStats r1 r2 r3 r4 r5).cache_misses ∧
        (fallbackCacheStats r1 r2 r3 r4 r5).cache_misses < 100 ∧
        0 ≤ (fallbackCacheStats r1 r2 r3 r4 r5).total_requests ∧
        (fallbackCacheStats r1 r2 r3 r4 r5).total_requests < 10100) := by
  intro o r1 r2 r3 r4 r5
  have hfloor : ∀ (x bound : ℚ) (z : ℤ), 0 ≤ x → x < 1 → (bound : ℚ) = (z : ℚ) → 0 < z →
      0 ≤ ⌊x * bound⌋ ∧ ⌊x * bound⌋ < z := by
    intro x bound z hx0 hx1 hbz hz
    have hb0 : (0:ℚ) ≤ bound := by
      rw [hbz]
      exact_mod_cast le_of_lt hz
    constructor
    · exact Int.le_floor.mpr (by push_cast; positivity)
    · apply Int.floor_lt.mpr
      have hbpos : (0:ℚ) < bound := by
        rw [hbz]
        exact_mod_cast hz
      calc x * bound < 1 * bound := mul_lt_mul_of_pos_right hx1 hbpos
        _ = (z:ℚ) := by rw [one_mul, hbz]
  constructor
  · intro s hs
    subst hs
    rfl
  · intro hnotok hr10 hr11 hr20 hr21 hr30 hr31 hr40 hr41
    have hfirst : fetchStats o r1 r2 r3 r4 r5 = some (fallbackCacheStats r1 r2 r3 r4 r5) := by
      cases o with
      | ok s => exact absurd rfl (hnotok s)
      | httpError status => rfl
      | exn msg => rfl
    have h1 := hfloor r1 10000 10000 hr10 hr11 (by norm_num) (by norm_num)
    have h2 := hfloor r2 100 100 hr20 hr21 (by norm_num) (by norm_num)
    have h3 := hfloor r3 10100 10100 hr30 hr31 (by norm_num) (by norm_num)
    refine ⟨hfirst, ?_, ?_, h1.1, h1.2, h2.1, h2.2, h3.1, h3.2⟩
    · unfold fallbackCacheStats
      dsimp only
      nlinarith
    · unfold fallbackCacheStats
      dsimp only
      nlinarith

/-- C8 witness: applying the bounds at a failing outcome with
all draws `1/2`. -/
theorem fetchStats_fallback_bounds_witness :
    fetchStats (.httpError 500) (1/2) (1/2) (1/2) (1/2) (1/2) =
      some (fallbackCacheStats (1/2) (1/2) (1/2) (1/2) (1/2)) ∧
    995/10 ≤ (fallbackCacheStats (1/2) (1/2) (1/2) (1/2) (1/2)).hit_rate_percent := by
  have h := (fetchStats_fallback_bounds (.httpError 500) (1/2) (1/2) (1/2) (1/2) (1/2)).2
    (fun s hs => FetchOutcome.noConfusion hs) (by norm_num) (by norm_num) (by norm_num)
    (by norm_num) (by norm_num) (by norm_num) (by norm_num) (by norm_num)
  exact ⟨h.1, h.2.1⟩

/-- C9 (counterexample): on the empty sample list `calculateStats` does
not fail at all — it returns a record whose min, max, median, p95 and p99
are JavaScript `undefined` and whose mean is `NaN` (both modelled as
`none`), refuting that an `InvalidArgument`-kind error is raised. -/
theorem calculateStats_empty_counterexample :
    calculateStats ([] : List ℚ) =
      { min := none, max := none, mean := none, median := none,
        p95 := none, p99 := none } := by
  have h : ([] : List ℚ).mergeSort = [] := by simp
  simp [calculateStats, h]

/-- C9 (amended): on empty input `calculateStats` silently returns a
summary with every order statistic undefined and the mean `NaN`, instead
of raising an error. -/
theorem calculateStats_empty_silent :
    (calculateStats ([] : List ℚ)).min = none ∧
    (calculateStats ([] : List ℚ)).max = none ∧
    (calculateStats ([] : List ℚ)).mean = none ∧
    (calculateStats ([] : List ℚ)).median = none ∧
    (calculateStats ([] : List ℚ)).p95 = none ∧
    (calculateStats ([] : List ℚ)).p99 = none := by
  have h : ([] : List ℚ).mergeSort = [] := by simp
  refine ⟨?_, ?_, ?_, ?_, ?_, ?_⟩ <;> simp [calculateStats, h]

/-- C7: the fallback price perturbation is an absolute uniform draw in
`(-1, 1)` dollars, not a draw within ±1% of the symbol's base price: an
MSFT quote (base 445) never exceeds 446, although the claimed ±1% band
reaches 449.45; the AAPL instance of the claim does hold (source
`"fallback"` and price within `[179.5, 183.5]`). -/
theorem fallback_volatility_absolute_not_percent :
    ∀ (r : RandQuad) (ts : String), 0 ≤ r.volatilityDraw → r.volatilityDraw < 1 →
      (generateFallbackPriceData "MSFT" r ts).price ≤ 446 ∧
      (generateFallbackPriceData "AAPL" r ts).source = "fallback" ∧
      (359/2 : ℚ) ≤ (generateFallbackPriceData "AAPL" r ts).price ∧
      (generateFallbackPriceData "AAPL" r ts).price ≤ 367/2 := by
  intro r ts h0 h1
  have hMSFT : basePrice "MSFT" = 445 := by
    simp [basePrice, basePriceTable, List.lookup]
    norm_num
  have hAAPL : basePrice "AAPL" = 363/2 := by
    norm_num [basePrice, basePriceTable, List.lookup]
  have hMprice : (generateFallbackPriceData "MSFT" r ts).price
      = round2 (445 + (r.volatilityDraw - 1/2) * 2) := by
    simp [generateFallbackPriceData, hMSFT]
  have hAprice : (generateFallbackPriceData "AAPL" r ts).price
      = round2 (363/2 + (r.volatilityDraw - 1/2) * 2) := by
    simp [generateFallbackPriceData, hAAPL]
  have h446 : round2 446 = 446 := by
    have h := round2_half 892
    push_cast at h
    norm_num at h
    exact h
  have h361 : round2 (361/2) = 361/2 := by
    have h := round2_half 361
    push_cast at h
    exact h
  have h365 : round2 (365/2) = 365/2 := by
    have h := round2_half 365
    push_cast at h
    exact h
  refine ⟨?_, by simp [generateFallbackPriceData], ?_, ?_⟩
  · rw [hMprice]
    calc round2 (445 + (r.volatilityDraw - 1/2) * 2) ≤ round2 446 :=
          round2_mono (by linarith)
      _ = 446 := h446
  · rw [hAprice]
    calc (359/2 : ℚ) ≤ 361/2 := by norm_num
      _ = round2 (361/2) := h361.symm
      _ ≤ round2 (363/2 + (r.volatilityDraw - 1/2) * 2) := round2_mono (by linarith)
  · rw [hAprice]
    calc round2 (363/2 + (r.volatilityDraw - 1/2) * 2) ≤ round2 (365/2) :=
          round2_mono (by linarith)
      _ = 365/2 := h365
      _ ≤ 367/2 := by norm_num

/-- C7 witness: the bounds applied at the maximal-side draw 199/200. -/
theorem fallback_volatility_witness :
    (generateFallbackPriceData "MSFT" ⟨199/200, 0, 0, 0⟩ "t").price ≤ 446 ∧
    (generateFallbackPriceData "AAPL" ⟨199/200, 0, 0, 0⟩ "t").source = "fallback" := by
  have h := fallback_volatility_absolute_not_percent ⟨199/200, 0, 0, 0⟩ "t"
    (by norm_num) (by norm_num)
  exact ⟨h.1, h.2.1⟩

/-- The example latency sample sequence of the spec (milliseconds). -/
def demoSamples : List ℚ := [3/10, 7/20, 2/5, 9/10, 6/5]

/-- C3: for non-empty input, `calculateStats` sorts ascending and returns
the true minimum and maximum, the arithmetic mean, the sorted element at
index `floor(n/2)` as median, and the sorted elements at nearest-rank
indices `floor(n*0.95)` and `floor(n*0.99)` as p95/p99 (all defined, no
interpolation); on `[0.3, 0.35, 0.4, 0.9, 1.2]` it yields min 0.3,
max 1.2, mean 0.63, median 0.4, p95 1.2, p99 1.2. -/
theorem calculateStats_spec :
    (∀ l : List ℚ, l ≠ [] →
      (calculateStats l).min = l.min? ∧
      (calculateStats l).max = l.max? ∧
      (calculateStats l).mean = some (l.sum / l.length) ∧
      (calculateStats l).median = (l.mergeSort)[l.length / 2]? ∧
      ((calculateStats l).median).isSome = true ∧
      (calculateStats l).p95 = (l.mergeSort)[l.length * 95 / 100]? ∧
      ((calculateStats l).p95).isSome = true ∧
      (calculateStats l).p99 = (l.mergeSort)[l.length * 99 / 100]? ∧
      ((calculateStats l).p99).isSome = true) ∧
    calculateStats demoSamples =
      { min := some (3/10), max := some (6/5), mean := some (63/100),
        median := some (2/5), p95 := some (6/5), p99 := some (6/5) } := by
  constructor
  · intro l hne
    have hp : List.Perm l.mergeSort l := List.mergeSort_perm l _
    have hlen : (l.mergeSort).length = l.length := hp.length_eq
    have hlpos : 0 < l.length := List.length_pos.mpr hne
    have hIs : ∀ i : ℕ, i < l.length → ((l.mergeSort)[i]?).isSome = true := by
      intro i hi
      rw [List.getElem?_eq_getElem (by rw [hlen]; exact hi)]
      rfl
    rw [calculateStats_def]
    refine ⟨?_, ?_, ?_, ?_, ?_, ?_, ?_, ?_, ?_⟩
    · rw [← List.head?_eq_getElem?]
      exact mergeSort_head?_eq_min? l
    · rw [← List.getLast?_eq_getElem?]
      exact mergeSort_getLast?_eq_max? l
    · rw [if_neg (by omega), hlen, hp.sum_eq]
    · rw [hlen]
    · rw [hlen]
      exact hIs _ (Nat.div_lt_self hlpos (by norm_num))
    · rw [hlen]
    · rw [hlen]
      refine hIs _ (Nat.div_lt_of_lt_mul ?_)
      omega
    · rw [hlen]
    · rw [hlen]
      refine hIs _ (Nat.div_lt_of_lt_mul ?_)
      omega
  · have hsorted : (demoSamples).mergeSort = demoSamples :=
      List.mergeSort_eq_self (by norm_num [demoSamples, List.sorted_cons])
    rw [calculateStats_def, hsorted]
    simp only [demoSamples]
    norm_num

/-- C3 witness: the clauses applied at the spec's example sample list. -/
theorem calculateStats_spec_witness :
    (calculateStats demoSamples).min = demoSamples.min? ∧
    ((calculateStats demoSamples).p95).isSome = true := by
  have h := calculateStats_spec.1 demoSamples (by simp [demoSamples])
  exact ⟨h.1, h.2.2.2.2.2.2.1⟩

end PriceDashboard
